import Mathlib

/-!
Verification of the matchmaking / signaling-relay backend of the ceople
repository (`backend/server.js`, with the alternate server version kept in the
repo as an unnamed duplicate).

The embedding below is a shallow model of the Socket.IO event handlers of
`backend/server.js`:

* `authMiddleware`    — the `io.use` authentication middleware (lines 123-155);
* `joinQueue`         — the `join-queue` handler (lines 167-211);
* `sendMessage`       — the `send-message` handler (lines 214-255);
* `webrtcSignalRelay` — the `webrtc-signal` handler (lines 258-274);
* `leaveRoom`         — the `leave-room` handler (lines 294-319);
* `disconnectHandler` — the `disconnect` handler (lines 322-338);
* `findMatch`         — the matching function (lines 342-464).

Server state is the module-level mutable state of the process together with
the database tables the handlers read and write: `activeUsers` and
`waitingUsers` (JS `Map`s, modelled as association lists in key-insertion
order, since JS `Map` iteration follows insertion order and `set` on an
existing key keeps its position), the Socket.IO room adapter (`socketRooms`),
and the `user_queue`, `chat_rooms` and `chat_participants` tables.  Database
writes are modelled on their success path; the supabase query of the
authenticated matching branch carries no `order` clause, so its result is
modelled relationally (`dbPickValid`): any row passing the query's filters may
be the one returned.
-/

namespace Ceople

/-- Status column of a `chat_rooms` row (`'active'` / `'ended'`). -/
inductive RoomStatus where
  | active : RoomStatus
  | ended : RoomStatus
deriving DecidableEq, Repr

/-- An event emitted to a client socket, with the payload fields the server
actually sends (`server.js` `emit` calls). -/
inductive ServerEvent where
  /-- `match-found` payload `{roomId, chatType, isInitiator}`. -/
  | matchFound (roomId chatType : String) (isInitiator : Bool) : ServerEvent
  /-- `new-message` payload: `{roomId, senderId, content, messageType}` plus,
  on the authenticated branch only, `timestamp`. -/
  | newMessage (roomId senderId content messageType : String)
      (timestamp : Option String) : ServerEvent
  /-- `webrtc-signal` payload `{signal, fromUserId, targetUserId}`. -/
  | webrtcSignal (signal fromUserId : String) (targetUserId : Option String) : ServerEvent
  /-- `user-left` payload `{roomId}`. -/
  | userLeft (roomId : String) : ServerEvent
deriving DecidableEq, Repr

/-- A delivery: which user's socket receives which event. -/
abbrev Delivery := String × ServerEvent

/-- The mutable state the `server.js` handlers read and write. -/
structure ServerState where
  /-- Keys of the `activeUsers` map: user ids with a live socket. -/
  activeUsers : List String
  /-- The `waitingUsers` map: `userId ↦ chatType`, in key-insertion order. -/
  waitingUsers : List (String × String)
  /-- Rows of the `user_queue` table: `(user_id, chat_type)`. -/
  userQueue : List (String × String)
  /-- The Socket.IO room adapter: `roomId ↦ joined user ids`. -/
  socketRooms : List (String × List String)
  /-- Rows of the `chat_rooms` table: `(id, status)`. -/
  chatRooms : List (String × RoomStatus)
  /-- Rows of the `chat_participants` table: `(room_id, user_id)`. -/
  chatParticipants : List (String × String)
deriving DecidableEq, Repr

/-- JS `Map.set`: if the key is present its value is updated in place (the key
keeps its insertion position); otherwise the pair is appended. -/
def mapSet {α : Type} (m : List (String × α)) (k : String) (v : α) :
    List (String × α) :=
  match m with
  | [] => [(k, v)]
  | (k', v') :: rest =>
    if k' = k then (k, v) :: rest else (k', v') :: mapSet rest k v

/-- JS `Map.delete`: removes the entry with the given key. -/
def mapDelete {α : Type} (m : List (String × α)) (k : String) :
    List (String × α) :=
  m.filter (fun e => e.1 != k)

/-- JS `Map.get`. -/
def mapGet {α : Type} (m : List (String × α)) (k : String) : Option α :=
  (m.find? (fun e => e.1 == k)).map (·.2)

/-- The sockets currently joined to a Socket.IO room (empty if the room does
not exist in the adapter). -/
def roomMembers (s : ServerState) (roomId : String) : List String :=
  (mapGet s.socketRooms roomId).getD []

/-- `socket.to(roomId)`: every socket joined to `roomId` except the sender.
The sender's own membership of the room is not consulted. -/
def socketToRoom (s : ServerState) (roomId sender : String) : List String :=
  (roomMembers s roomId).filter (fun u => u != sender)

/-- `socket.join(roomId)`: adds the socket to the room's member list. -/
def socketJoin (s : ServerState) (roomId uid : String) : ServerState :=
  let members := roomMembers s roomId
  if uid ∈ members then s
  else { s with socketRooms := mapSet s.socketRooms roomId (members ++ [uid]) }

/-- `socket.leave(roomId)`: removes the socket from the room's member list. -/
def socketLeave (s : ServerState) (roomId uid : String) : ServerState :=
  match mapGet s.socketRooms roomId with
  | none => s
  | some members =>
    { s with socketRooms := mapSet s.socketRooms roomId (members.filter (fun u => u != uid)) }

/-- `from('user_queue').delete().eq('user_id', uid)`: removes every row of
that user. -/
def dbDeleteQueue (q : List (String × String)) (uid : String) :
    List (String × String) :=
  q.filter (fun r => r.1 != uid)

/-- The identity the authentication middleware attaches to a socket
(`socket.userId`, `socket.user.isGuest`). -/
structure UserIdentity where
  userId : String
  isGuest : Bool
deriving DecidableEq, Repr

/-- The `io.use` authentication middleware (`server.js` lines 123-155).  It
runs once per connection handshake, before any event handler is installed.
`getUserByToken` models `supabase.auth.getUser`: `none` stands for an invalid
or expired token.  `freshGuestId` models the random suffix generated for a
guest. -/
def authMiddleware (token : Option String) (guestUsername : Option String)
    (getUserByToken : String → Option String) (freshGuestId : String) :
    Except String UserIdentity :=
  match token with
  | none =>
    match guestUsername with
    | some _ => Except.ok ⟨"guest-" ++ freshGuestId, true⟩
    | none => Except.error "Authentication error: No token or guestUsername provided"
  | some t =>
    match getUserByToken t with
    | some uid => Except.ok ⟨uid, false⟩
    | none => Except.error "Authentication error: Invalid token"

/-- Boolean test that `p` is an initial segment of `s`, by comparing the
underlying character lists.  This is JS `String.prototype.startsWith` (and
Lean's `String.startsWith`), stated on `List Char` so that it evaluates by
kernel reduction. -/
def strStartsWith (s p : String) : Bool :=
  s.data.take p.length == p.data

/-- The scan of the guest matching branch (`server.js` lines 352-357):
`Array.from(waitingUsers.entries()).find(([id, data]) => id !== userId &&
data.chatType === chatType && id.startsWith('guest-'))`. -/
def guestScan (pool : List (String × String)) (userId chatType : String) :
    Option (String × String) :=
  pool.find? (fun e => e.1 != userId && e.2 == chatType && strStartsWith e.1 "guest-")

/-- The rows passing the filters of the authenticated matching query
(`server.js` lines 390-396): `.eq('chat_type', chatType).neq('user_id',
userId)`. -/
def queueCandidates (q : List (String × String)) (userId chatType : String) :
    List (String × String) :=
  q.filter (fun r => r.2 == chatType && r.1 != userId)

/-- The authenticated matching query ends in `.limit(1).single()` with no
`order` clause, so which candidate row the database returns is not
determined.  A result `row` is a possible outcome iff it passes the query's
filters. -/
def dbPickValid (q : List (String × String)) (userId chatType : String)
    (row : String × String) : Prop :=
  row ∈ queueCandidates q userId chatType

/-- The rows passing the filters of the alternate server version's matching
query (the unnamed duplicate of the server, `findMatch` there):
`.neq('user_id', ...).in('chat_type', [chatType, 'both'])`. -/
def queueCandidatesAlt (q : List (String × String)) (userId chatType : String) :
    List (String × String) :=
  q.filter (fun r => (r.2 == chatType || r.2 == "both") && r.1 != userId)

/-- The notification block both matching branches share (`server.js` lines
368-383 and 442-457): the triggering user joins the room and is told
`isInitiator: true`, the waiter joins and is told `isInitiator: false` — each
guarded by the user still having an entry in `activeUsers` — then both are
deleted from `waitingUsers`. -/
def notifyMatch (s : ServerState) (userId otherUserId roomId chatType : String) :
    ServerState × List Delivery :=
  let step1 : ServerState × List Delivery :=
    if userId ∈ s.activeUsers then
      (socketJoin s roomId userId,
        [(userId, ServerEvent.matchFound roomId chatType true)])
    else (s, [])
  let step2 : ServerState × List Delivery :=
    if otherUserId ∈ step1.1.activeUsers then
      (socketJoin step1.1 roomId otherUserId,
        step1.2 ++ [(otherUserId, ServerEvent.matchFound roomId chatType false)])
    else step1
  ({ step2.1 with
      waitingUsers := mapDelete (mapDelete step2.1.waitingUsers userId) otherUserId },
    step2.2)

/-- `findMatch(userId, chatType)` (`server.js` lines 342-464).  `freshRoomId`
models the id of the new room (`'room-' + random` on the guest branch, the
inserted `chat_rooms` row's id on the authenticated branch).  `dbPick` is the
row returned by the unordered authenticated query; a run of the real server
corresponds to a `dbPick` satisfying `dbPickValid` (or `none` when the table
holds no candidate). -/
def findMatch (s : ServerState) (userId chatType freshRoomId : String)
    (dbPick : Option (String × String)) : ServerState × List Delivery :=
  if strStartsWith userId "guest-" then
    match guestScan s.waitingUsers userId chatType with
    | none => (s, [])
    | some w => notifyMatch s userId w.1 freshRoomId chatType
  else
    match dbPick with
    | none => (s, [])
    | some row =>
      let s1 := { s with
        chatRooms := s.chatRooms ++ [(freshRoomId, RoomStatus.active)],
        chatParticipants := s.chatParticipants ++
          [(freshRoomId, userId), (freshRoomId, row.1)] }
      let s2 := { s1 with
        userQueue := s1.userQueue.filter (fun r => r.1 != userId && r.1 != row.1) }
      notifyMatch s2 userId row.1 freshRoomId chatType

/-- The `join-queue` handler (`server.js` lines 167-211).  Guests are added to
the in-memory `waitingUsers` map only; authenticated users are first deleted
from and re-inserted into the `user_queue` table, then added to
`waitingUsers`.  Both branches end by calling `findMatch`. -/
def joinQueue (s : ServerState) (userId : String) (isGuest : Bool)
    (chatType freshRoomId : String) (dbPick : Option (String × String)) :
    ServerState × List Delivery :=
  if isGuest then
    let s1 := { s with waitingUsers := mapSet s.waitingUsers userId chatType }
    findMatch s1 userId chatType freshRoomId dbPick
  else
    let s1 := { s with
      userQueue := dbDeleteQueue s.userQueue userId ++ [(userId, chatType)] }
    let s2 := { s1 with waitingUsers := mapSet s1.waitingUsers userId chatType }
    findMatch s2 userId chatType freshRoomId dbPick

/-- The `send-message` handler (`server.js` lines 214-255).  Both branches
broadcast with `socket.to(roomId)`; the guest branch's payload has no
`timestamp` field, the authenticated branch (after the `messages` insert,
modelled on its success path) adds `timestamp: new Date().toISOString()`,
modelled by `now`. -/
def sendMessage (s : ServerState) (userId : String) (isGuest : Bool)
    (roomId message messageType now : String) : List Delivery :=
  if isGuest then
    (socketToRoom s roomId userId).map
      (fun u => (u, ServerEvent.newMessage roomId userId message messageType none))
  else
    (socketToRoom s roomId userId).map
      (fun u => (u, ServerEvent.newMessage roomId userId message messageType (some now)))

/-- The `webrtc-signal` handler (`server.js` lines 258-274): the payload is
rebroadcast unchanged to `socket.to(roomId)` with `fromUserId` set to the
sender; no membership check of the sender is performed. -/
def webrtcSignalRelay (s : ServerState) (userId roomId signal : String)
    (targetUserId : Option String) : List Delivery :=
  (socketToRoom s roomId userId).map
    (fun u => (u, ServerEvent.webrtcSignal signal userId targetUserId))

/-- `update({status: 'ended', ...}).eq('id', roomId)` on `chat_rooms`: every
row with that id gets status `ended`. -/
def endRoomRow (rooms : List (String × RoomStatus)) (roomId : String) :
    List (String × RoomStatus) :=
  rooms.map (fun r => if r.1 == roomId then (r.1, RoomStatus.ended) else r)

/-- The `leave-room` handler (`server.js` lines 294-319): sets the room's
status to `ended`, deletes its `chat_participants` rows, emits `user-left` to
`socket.to(roomId)`, then leaves the socket room. -/
def leaveRoom (s : ServerState) (userId roomId : String) :
    ServerState × List Delivery :=
  let s1 := { s with
    chatRooms := endRoomRow s.chatRooms roomId,
    chatParticipants := s.chatParticipants.filter (fun p => p.1 != roomId) }
  let deliveries := (socketToRoom s1 roomId userId).map
    (fun u => (u, ServerEvent.userLeft roomId))
  (socketLeave s1 roomId userId, deliveries)

/-- The `disconnect` handler (`server.js` lines 322-338): removes the user
from `activeUsers` and `waitingUsers` and deletes their `user_queue` rows.
Nothing else: no room is ended and no event is emitted. -/
def disconnectHandler (s : ServerState) (userId : String) :
    ServerState × List Delivery :=
  ({ s with
      activeUsers := s.activeUsers.filter (fun u => u != userId),
      waitingUsers := mapDelete s.waitingUsers userId,
      userQueue := dbDeleteQueue s.userQueue userId },
    [])

/-- Modelled from the spec (section 4.2 `findCompatible`): chat-type
compatibility is exact match, or either side specifying the wildcard
`"both"`/`"either"`; symmetric by construction.  Kept separate from the code
model for comparison. -/
def compatSpec (a b : String) : Bool :=
  a == b || a == "both" || a == "either" || b == "both" || b == "either"

/-- Modelled from the spec (section 4.2): the first compatible queued entry in
insertion order (FIFO) among the authenticated queue's candidate rows.  Kept
separate from the code model for comparison. -/
def fifoCandidateSpec (q : List (String × String)) (userId chatType : String) :
    Option (String × String) :=
  (queueCandidates q userId chatType).head?

/-- Number of entries of an association list carrying a given key. -/
def countKey {α : Type} (l : List (String × α)) (k : String) : Nat :=
  (l.filter (fun e => e.1 == k)).length

/-- No row of the `user_queue` table carries a guest identifier. -/
def noGuestInDb (q : List (String × String)) : Prop :=
  ∀ r ∈ q, strStartsWith r.1 "guest-" = false

instance (q : List (String × String)) (uid ct : String) (row : String × String) :
    Decidable (dbPickValid q uid ct row) := by
  unfold dbPickValid
  infer_instance

instance (q : List (String × String)) : Decidable (noGuestInDb q) := by
  unfold noGuestInDb
  infer_instance

/-! ### Concrete states used to evaluate the handlers -/

/-- A state with one active room `room1` occupied by `a` and `b`, and a third
connected user `mallory` who never joined that room. -/
def outsiderRelayState : ServerState :=
  ⟨["a", "b", "mallory"], [], [], [("room1", ["a", "b"])],
    [("room1", RoomStatus.active)], [("room1", "a"), ("room1", "b")]⟩

/-- A state with one active room `r1` occupied by `a` and `b`. -/
def abruptDisconnectState : ServerState :=
  ⟨["a", "b"], [], [], [("r1", ["a", "b"])], [("r1", RoomStatus.active)],
    [("r1", "a"), ("r1", "b")]⟩

/-- A state with one active room `r2` occupied by `a` and `b`. -/
def doubleLeaveState : ServerState :=
  ⟨["a", "b"], [], [], [("r2", ["a", "b"])], [("r2", RoomStatus.active)],
    [("r2", "a"), ("r2", "b")]⟩

/-- A state with guest `guest-y` waiting for a video match. -/
def guestPairState : ServerState :=
  ⟨["guest-x", "guest-y"], [("guest-y", "video")], [], [], [], []⟩

/-- A state with two guests sharing the room `r3`. -/
def guestRoomState : ServerState :=
  ⟨["guest-a", "guest-b"], [], [], [("r3", ["guest-a", "guest-b"])],
    [("r3", RoomStatus.active)], []⟩

/-- The state of a freshly started server process. -/
def emptyState : ServerState := ⟨[], [], [], [], [], []⟩

/-- A state whose database queue holds the authenticated user `u7`. -/
def dbQueueState : ServerState := ⟨[], [], [("u7", "video")], [], [], []⟩

/-- A state with guest `guest-b` waiting for a video match. -/
def guestWaiterState : ServerState := ⟨[], [("guest-b", "video")], [], [], [], []⟩

/-! ## Helper lemmas about the list model -/

theorem find_eq_some_split {α : Type} (p : α → Bool) (l : List α) (a : α)
    (h : l.find? p = some a) :
    ∃ l₁ l₂, l = l₁ ++ a :: l₂ ∧ (∀ x ∈ l₁, p x = false) ∧ p a = true := by
  induction l with
  | nil => simp [List.find?] at h
  | cons b rest ih =>
    by_cases hb : p b
    · rw [List.find?_cons_of_pos _ hb] at h
      exact ⟨[], rest, by simp [← Option.some_inj.mp h, hb]⟩
    · rw [List.find?_cons_of_neg _ hb] at h
      obtain ⟨l₁, l₂, hsplit, hfail, hsat⟩ := ih h
      exact ⟨b :: l₁, l₂, by simp [hsplit], by
        intro x hx
        rcases List.mem_cons.mp hx with hx | hx
        · simpa [hx] using hb
        · exact hfail x hx, hsat⟩

theorem mapGet_mapSet_self {α : Type} (m : List (String × α)) (k : String) (v : α) :
    mapGet (mapSet m k v) k = some v := by
  induction m with
  | nil => simp [mapSet, mapGet, List.find?]
  | cons e rest ih =>
    by_cases hk : e.1 = k
    · simp [mapSet, hk, mapGet, List.find?]
    · simpa [mapSet, hk, mapGet, List.find?_cons_of_neg, hk] using ih

theorem mapGet_mapDelete_self {α : Type} (m : List (String × α)) (k : String) :
    mapGet (mapDelete m k) k = none := by
  induction m with
  | nil => simp [mapDelete, mapGet, List.find?]
  | cons e rest ih =>
    by_cases hk : e.1 = k
    · have he : mapDelete (e :: rest) k = mapDelete rest k := by
        simp [mapDelete, List.filter_cons, hk]
      rw [he]
      exact ih
    · have he : mapDelete (e :: rest) k = e :: mapDelete rest k := by
        simp [mapDelete, List.filter_cons, hk]
      rw [he, mapGet, List.find?_cons_of_neg _ (by simpa using hk)]
      exact ih

theorem endRoomRow_mapGet (rooms : List (String × RoomStatus)) (roomId : String)
    (st : RoomStatus) (h : mapGet rooms roomId = some st) :
    mapGet (endRoomRow rooms roomId) roomId = some RoomStatus.ended := by
  induction rooms with
  | nil => simp [mapGet, List.find?] at h
  | cons e rest ih =>
    by_cases hk : e.1 = roomId
    · simp [endRoomRow, mapGet, List.find?, hk]
    · rw [mapGet, List.find?_cons_of_neg _ (by simpa using hk)] at h
      simpa [endRoomRow, mapGet, List.find?_cons_of_neg, hk] using ih h

theorem countKey_append {α : Type} (l₁ l₂ : List (String × α)) (k : String) :
    countKey (l₁ ++ l₂) k = countKey l₁ k + countKey l₂ k := by
  simp [countKey, List.filter_append]

theorem countKey_filter_le {α : Type} (l : List (String × α)) (p : String × α → Bool)
    (k : String) : countKey (l.filter p) k ≤ countKey l k := by
  unfold countKey
  exact ((List.filter_sublist l).filter _).length_le

theorem countKey_cons {α : Type} (e : String × α) (l : List (String × α)) (k : String) :
    countKey (e :: l) k = (if e.1 = k then 1 else 0) + countKey l k := by
  by_cases h : e.1 = k
  · simp [countKey, List.filter_cons, h, Nat.add_comm]
  · simp [countKey, List.filter_cons, h]

theorem countKey_mapSet_self {α : Type} (l : List (String × α)) (k : String) (v : α) :
    countKey (mapSet l k v) k = max (countKey l k) 1 := by
  induction l with
  | nil => simp [mapSet, countKey_cons, countKey]
  | cons e rest ih =>
    by_cases hk : e.1 = k
    · rw [mapSet, if_pos hk, countKey_cons, countKey_cons, if_pos rfl, if_pos hk]
      omega
    · rw [mapSet, if_neg hk, countKey_cons, countKey_cons, if_neg hk, ih]
      omega

theorem countKey_mapSet_other {α : Type} (l : List (String × α)) (k k' : String) (v : α)
    (hne : k' ≠ k) : countKey (mapSet l k v) k' = countKey l k' := by
  induction l with
  | nil => simp [mapSet, countKey_cons, countKey, Ne.symm hne]
  | cons e rest ih =>
    by_cases hk : e.1 = k
    · rw [mapSet, if_pos hk, countKey_cons, countKey_cons, if_neg (Ne.symm hne),
        if_neg (hk ▸ Ne.symm hne : ¬e.1 = k')]
    · rw [mapSet, if_neg hk, countKey_cons, countKey_cons, ih]

theorem countKey_dbDeleteQueue_self (q : List (String × String)) (uid : String) :
    countKey (dbDeleteQueue q uid) uid = 0 := by
  induction q with
  | nil => rfl
  | cons e rest ih =>
    by_cases h : e.1 = uid
    · have he : dbDeleteQueue (e :: rest) uid = dbDeleteQueue rest uid := by
        simp [dbDeleteQueue, List.filter_cons, h]
      rw [he]
      exact ih
    · have he : dbDeleteQueue (e :: rest) uid = e :: dbDeleteQueue rest uid := by
        simp [dbDeleteQueue, List.filter_cons, h]
      rw [he, countKey_cons, if_neg h, ih]

theorem noGuestInDb_filter (q : List (String × String)) (p : String × String → Bool)
    (h : noGuestInDb q) : noGuestInDb (q.filter p) := by
  intro r hr
  exact h r (List.mem_filter.mp hr).1

theorem socketJoin_activeUsers (s : ServerState) (roomId uid : String) :
    (socketJoin s roomId uid).activeUsers = s.activeUsers := by
  unfold socketJoin
  by_cases h : uid ∈ roomMembers s roomId <;> simp [h]

theorem socketJoin_waitingUsers (s : ServerState) (roomId uid : String) :
    (socketJoin s roomId uid).waitingUsers = s.waitingUsers := by
  unfold socketJoin
  by_cases h : uid ∈ roomMembers s roomId <;> simp [h]

theorem socketJoin_userQueue (s : ServerState) (roomId uid : String) :
    (socketJoin s roomId uid).userQueue = s.userQueue := by
  unfold socketJoin
  by_cases h : uid ∈ roomMembers s roomId <;> simp [h]

theorem countKey_mapDelete_le {α : Type} (m : List (String × α)) (k' k : String) :
    countKey (mapDelete m k') k ≤ countKey m k :=
  countKey_filter_le m _ k

theorem mapSet_mapSet {α : Type} (m : List (String × α)) (k : String) (v w : α) :
    mapSet (mapSet m k v) k w = mapSet m k w := by
  induction m with
  | nil => simp [mapSet]
  | cons e rest ih =>
    by_cases hk : e.1 = k
    · simp [mapSet, hk]
    · simp [mapSet, hk, ih]

theorem dbDeleteQueue_append (l₁ l₂ : List (String × String)) (uid : String) :
    dbDeleteQueue (l₁ ++ l₂) uid = dbDeleteQueue l₁ uid ++ dbDeleteQueue l₂ uid := by
  simp [dbDeleteQueue, List.filter_append]

theorem dbDeleteQueue_idem (q : List (String × String)) (uid : String) :
    dbDeleteQueue (dbDeleteQueue q uid) uid = dbDeleteQueue q uid := by
  simp [dbDeleteQueue, List.filter_filter]

theorem dbDeleteQueue_single_self (uid ct : String) :
    dbDeleteQueue [(uid, ct)] uid = [] := by
  simp [dbDeleteQueue]

theorem notifyMatch_userQueue (s : ServerState) (a b r ct : String) :
    (notifyMatch s a b r ct).1.userQueue = s.userQueue := by
  unfold notifyMatch
  by_cases h1 : a ∈ s.activeUsers
  · simp only [h1, ite_true]
    by_cases h2 : b ∈ (socketJoin s r a).activeUsers <;>
      simp [h2, socketJoin_userQueue]
  · simp only [h1, ite_false]
    by_cases h2 : b ∈ s.activeUsers <;> simp [h2, socketJoin_userQueue]

theorem notifyMatch_waitingUsers_count (s : ServerState) (a b r ct k : String) :
    countKey (notifyMatch s a b r ct).1.waitingUsers k ≤ countKey s.waitingUsers k := by
  unfold notifyMatch
  by_cases h1 : a ∈ s.activeUsers
  · simp only [h1, ite_true]
    by_cases h2 : b ∈ (socketJoin s r a).activeUsers <;>
      simp only [h2, ite_true, ite_false] <;>
      exact le_trans (countKey_mapDelete_le _ _ _)
        (le_trans (countKey_mapDelete_le _ _ _)
          (by simp [socketJoin_waitingUsers]))
  · simp only [h1, ite_false]
    by_cases h2 : b ∈ s.activeUsers <;>
      simp only [h2, ite_true, ite_false] <;>
      exact le_trans (countKey_mapDelete_le _ _ _)
        (le_trans (countKey_mapDelete_le _ _ _)
          (by simp [socketJoin_waitingUsers]))

theorem notifyMatch_deliveries (s : ServerState) (a b r ct : String)
    (ha : a ∈ s.activeUsers) (hb : b ∈ s.activeUsers) :
    (notifyMatch s a b r ct).2 =
      [(a, ServerEvent.matchFound r ct true), (b, ServerEvent.matchFound r ct false)] := by
  simp [notifyMatch, socketJoin_activeUsers, ha, hb]

theorem findMatch_none (s : ServerState) (uid ct rid : String)
    (hg : guestScan s.waitingUsers uid ct = none) :
    findMatch s uid ct rid none = (s, []) := by
  unfold findMatch
  by_cases h : strStartsWith uid "guest-" = true <;> simp [h, hg]

theorem findMatch_waitingUsers_count (s : ServerState) (uid ct rid k : String)
    (dbPick : Option (String × String)) :
    countKey (findMatch s uid ct rid dbPick).1.waitingUsers k ≤
      countKey s.waitingUsers k := by
  unfold findMatch
  by_cases h : strStartsWith uid "guest-" = true
  · simp only [h, if_true]
    cases hg : guestScan s.waitingUsers uid ct with
    | none => exact le_refl _
    | some w => exact notifyMatch_waitingUsers_count s uid w.1 rid ct k
  · simp only [Bool.not_eq_true] at h
    simp only [h, Bool.false_eq_true, if_false]
    cases dbPick with
    | none => exact le_refl _
    | some row => exact notifyMatch_waitingUsers_count _ uid row.1 rid ct k

theorem findMatch_userQueue_count (s : ServerState) (uid ct rid k : String)
    (dbPick : Option (String × String)) :
    countKey (findMatch s uid ct rid dbPick).1.userQueue k ≤
      countKey s.userQueue k := by
  unfold findMatch
  by_cases h : strStartsWith uid "guest-" = true
  · simp only [h, if_true]
    cases hg : guestScan s.waitingUsers uid ct with
    | none => exact le_refl _
    | some w => rw [notifyMatch_userQueue]
  · simp only [Bool.not_eq_true] at h
    simp only [h, Bool.false_eq_true, if_false]
    cases dbPick with
    | none => exact le_refl _
    | some row =>
      rw [notifyMatch_userQueue]
      exact countKey_filter_le s.userQueue _ k

theorem findMatch_noGuestInDb (s : ServerState) (uid ct rid : String)
    (dbPick : Option (String × String)) (h : noGuestInDb s.userQueue) :
    noGuestInDb (findMatch s uid ct rid dbPick).1.userQueue := by
  unfold findMatch
  by_cases hs : strStartsWith uid "guest-" = true
  · simp only [hs, if_true]
    cases hg : guestScan s.waitingUsers uid ct with
    | none => exact h
    | some w => rw [notifyMatch_userQueue]; exact h
  · simp only [Bool.not_eq_true] at hs
    simp only [hs, Bool.false_eq_true, if_false]
    cases dbPick with
    | none => exact h
    | some row =>
      rw [notifyMatch_userQueue]
      exact noGuestInDb_filter s.userQueue _ h

theorem leaveRoom_eq (s : ServerState) (uid rid : String) (members : List String)
    (hmem : mapGet s.socketRooms rid = some members) :
    leaveRoom s uid rid =
      ({ s with
          chatRooms := endRoomRow s.chatRooms rid,
          chatParticipants := s.chatParticipants.filter (fun p => p.1 != rid),
          socketRooms := mapSet s.socketRooms rid
            (members.filter (fun u => u != uid)) },
        (members.filter (fun u => u != uid)).map
          (fun u => (u, ServerEvent.userLeft rid))) := by
  simp only [leaveRoom, socketToRoom, roomMembers, socketLeave, hmem,
    Option.getD_some]

theorem joinQueue_guest (s : ServerState) (uid ct rid : String)
    (dbPick : Option (String × String)) :
    joinQueue s uid true ct rid dbPick =
      findMatch { s with waitingUsers := mapSet s.waitingUsers uid ct }
        uid ct rid dbPick := rfl

theorem joinQueue_auth (s : ServerState) (uid ct rid : String)
    (dbPick : Option (String × String)) :
    joinQueue s uid false ct rid dbPick =
      findMatch { s with
          userQueue := dbDeleteQueue s.userQueue uid ++ [(uid, ct)],
          waitingUsers := mapSet s.waitingUsers uid ct }
        uid ct rid dbPick := rfl

/-! ## Claims -/

/-- Claim C1, counterexample: the relay performs no membership check on the
sender.  In `outsiderRelayState` the user `mallory` is not a member of
`room1`, yet a `webrtc-signal` and a guest `send-message` relayed by `mallory`
into `room1` are delivered to both occupants rather than being dropped. -/
theorem relay_from_outsider_is_delivered :
    ¬ ("mallory" ∈ roomMembers outsiderRelayState "room1") ∧
    webrtcSignalRelay outsiderRelayState "mallory" "room1" "offer" none =
      [("a", ServerEvent.webrtcSignal "offer" "mallory" none),
       ("b", ServerEvent.webrtcSignal "offer" "mallory" none)] ∧
    sendMessage outsiderRelayState "mallory" true "room1" "hi" "text" "t0" =
      [("a", ServerEvent.newMessage "room1" "mallory" "hi" "text" none),
       ("b", ServerEvent.newMessage "room1" "mallory" "hi" "text" none)] := by
  decide

/-- Claim C1, amended: a relay payload (`webrtc-signal` or `send-message`)
with a given `roomId` is forwarded to exactly the sockets currently joined to
that room other than the sender; the sender's own membership is never
consulted, so a relay attempt by a non-member is delivered to the room's
occupants instead of being rejected. -/
theorem relay_scoped_to_room_members (s : ServerState)
    (uid rid sig msg mt now : String) (tgt : Option String) (u : String) :
    ((u, ServerEvent.webrtcSignal sig uid tgt) ∈ webrtcSignalRelay s uid rid sig tgt ↔
      u ∈ roomMembers s rid ∧ u ≠ uid) ∧
    (∀ ig : Bool,
      (u, ServerEvent.newMessage rid uid msg mt (if ig then none else some now)) ∈
          sendMessage s uid ig rid msg mt now ↔
        u ∈ roomMembers s rid ∧ u ≠ uid) := by
  constructor
  · simp [webrtcSignalRelay, socketToRoom, List.mem_filter]
  · intro ig
    cases ig <;> simp [sendMessage, socketToRoom, List.mem_filter]

/-- Claim C2, counterexample: in `abruptDisconnectState` the users `a` and
`b` share the active room `r1`.  An abrupt disconnect of `a` leaves the room's
status `active` and emits nothing, while an explicit `leave-room` by `a` sets
the status to `ended` and notifies `b` with `user-left` — the two end-states
differ. -/
theorem disconnect_differs_from_leave :
    (disconnectHandler abruptDisconnectState "a").1.chatRooms =
      [("r1", RoomStatus.active)] ∧
    (disconnectHandler abruptDisconnectState "a").2 = [] ∧
    (leaveRoom abruptDisconnectState "a" "r1").1.chatRooms =
      [("r1", RoomStatus.ended)] ∧
    (leaveRoom abruptDisconnectState "a" "r1").2 =
      [("b", ServerEvent.userLeft "r1")] := by
  decide

/-- Claim C2, amended: an abrupt disconnect removes the user's live-socket
entry, in-memory pool entry and database queue rows, but it ends no room,
removes no participants row, and emits no `user-left`; room teardown and
partner notification happen only through an explicit `leave-room`. -/
theorem disconnect_cleans_only_queues (s : ServerState) (uid : String) :
    (disconnectHandler s uid).1.chatRooms = s.chatRooms ∧
    (disconnectHandler s uid).1.socketRooms = s.socketRooms ∧
    (disconnectHandler s uid).1.chatParticipants = s.chatParticipants ∧
    (disconnectHandler s uid).2 = [] ∧
    mapGet (disconnectHandler s uid).1.waitingUsers uid = none ∧
    countKey (disconnectHandler s uid).1.userQueue uid = 0 ∧
    uid ∉ (disconnectHandler s uid).1.activeUsers := by
  refine ⟨rfl, rfl, rfl, rfl, mapGet_mapDelete_self _ _,
    countKey_dbDeleteQueue_self _ _, ?_⟩
  simp [disconnectHandler, List.mem_filter]

/-- Claim C3, counterexample: the compatibility test of the matching is not
the spec's symmetric wildcard rule.  `compatSpec` accepts the pair
(`"both"`, `"video"`), yet the guest scan skips a waiting `"both"` guest when
the caller requests `"video"`, and the authenticated query's filters likewise
reject a `"both"` row. -/
theorem wildcard_waiter_not_matched :
    compatSpec "both" "video" = true ∧
    guestScan [("guest-w", "both")] "guest-x" "video" = none ∧
    queueCandidates [("w", "both")] "x" "video" = [] := by
  decide

/-- Claim C3, amended: the chat-type test used by the main server's matching
is exact equality of chat-types (symmetric, but with no wildcard): the guest
scan accepts exactly the waiting entries with a different user id, equal
chat-type and a guest identifier, and the authenticated query's candidate rows
are exactly those with equal chat-type and a different user id.  The alternate
server version honours the `"both"` wildcard only on the waiter's side. -/
theorem compatibility_is_exact_equality (pool q : List (String × String))
    (uid ct : String) (w row : String × String) :
    (guestScan pool uid ct = some w →
      w.1 ≠ uid ∧ w.2 = ct ∧ strStartsWith w.1 "guest-" = true) ∧
    (row ∈ queueCandidates q uid ct ↔ row ∈ q ∧ row.2 = ct ∧ row.1 ≠ uid) ∧
    (row ∈ queueCandidatesAlt q uid ct ↔
      row ∈ q ∧ (row.2 = ct ∨ row.2 = "both") ∧ row.1 ≠ uid) := by
  refine ⟨?_, ?_, ?_⟩
  · intro h
    have := List.find?_some h
    simp only [Bool.and_eq_true, bne_iff_ne, ne_eq, beq_iff_eq] at this
    exact ⟨this.1.1, this.1.2, this.2⟩
  · unfold queueCandidates
    simp [List.mem_filter, and_assoc]
  · unfold queueCandidatesAlt
    simp [List.mem_filter, and_assoc]

/-- Claim C3, witness for the amended theorem: evaluated on a one-entry pool
holding `guest-w` with chat-type `video` and a caller `guest-x` requesting
`video`. -/
theorem compatibility_is_exact_equality_witness :
    "guest-w" ≠ "guest-x" ∧ "video" = "video" ∧
      strStartsWith "guest-w" "guest-" = true :=
  (compatibility_is_exact_equality [("guest-w", "video")] [] "guest-x" "video"
    ("guest-w", "video") ("z", "video")).1 (by rfl)

/-- Claim C4: when a match is created, both members receive `match-found`
with the same `roomId` and `chatType`, the triggering user with
`isInitiator: true` and the matched waiter with `isInitiator: false` —
exactly one initiator, in both the guest branch and the authenticated branch
of `findMatch`. -/
theorem match_found_role_asymmetry (s : ServerState) (uid ct rid : String)
    (dbPick : Option (String × String)) :
    (∀ w, strStartsWith uid "guest-" = true →
      guestScan s.waitingUsers uid ct = some w →
      uid ∈ s.activeUsers → w.1 ∈ s.activeUsers →
      w.1 ≠ uid ∧
      (findMatch s uid ct rid dbPick).2 =
        [(uid, ServerEvent.matchFound rid ct true),
         (w.1, ServerEvent.matchFound rid ct false)]) ∧
    (∀ row, strStartsWith uid "guest-" = false →
      dbPick = some row →
      dbPickValid s.userQueue uid ct row →
      uid ∈ s.activeUsers → row.1 ∈ s.activeUsers →
      row.1 ≠ uid ∧
      (findMatch s uid ct rid dbPick).2 =
        [(uid, ServerEvent.matchFound rid ct true),
         (row.1, ServerEvent.matchFound rid ct false)]) := by
  constructor
  · intro w hguest hscan ha hb
    have hpred := List.find?_some hscan
    simp only [Bool.and_eq_true, bne_iff_ne, beq_iff_eq, ne_eq] at hpred
    refine ⟨hpred.1.1, ?_⟩
    unfold findMatch
    rw [if_pos hguest]
    simp only [hscan]
    exact notifyMatch_deliveries s uid w.1 rid ct ha hb
  · intro row hauth hpick hvalid ha hb
    have hrow : row.1 ≠ uid := by
      have hm := (List.mem_filter.mp hvalid).2
      simp only [Bool.and_eq_true, bne_iff_ne, ne_eq] at hm
      exact hm.2
    refine ⟨hrow, ?_⟩
    subst hpick
    unfold findMatch
    rw [if_neg (by simp [hauth])]
    exact notifyMatch_deliveries _ uid row.1 rid ct ha hb

/-- Claim C4, witness: in `guestPairState` the guest `guest-x` requesting
video is matched with the waiting `guest-y`; both are notified with the same
room and chat-type and opposite `isInitiator` flags. -/
theorem match_found_role_asymmetry_witness :
    "guest-y" ≠ "guest-x" ∧
    (findMatch guestPairState "guest-x" "video" "room-z" none).2 =
      [("guest-x", ServerEvent.matchFound "room-z" "video" true),
       ("guest-y", ServerEvent.matchFound "room-z" "video" false)] :=
  (match_found_role_asymmetry guestPairState "guest-x" "video" "room-z" none).1
    ("guest-y", "video") rfl rfl (by decide) (by decide)

/-- Claim C5: `join-queue` keeps at most one queue entry per user identifier —
the in-memory pool is a JS map keyed by user id and the database insert is
preceded by a delete of the user's rows — and, in the absence of a match,
repeating `join-queue` is idempotent: the second call reproduces exactly the
state and output of the first. -/
theorem join_queue_single_entry (s : ServerState) (uid : String) (ig : Bool)
    (ct rid : String) (dbPick : Option (String × String))
    (hw : countKey s.waitingUsers uid ≤ 1)
    (hq : countKey s.userQueue uid ≤ 1) :
    countKey (joinQueue s uid ig ct rid dbPick).1.waitingUsers uid ≤ 1 ∧
    countKey (joinQueue s uid ig ct rid dbPick).1.userQueue uid ≤ 1 ∧
    (guestScan (mapSet s.waitingUsers uid ct) uid ct = none → dbPick = none →
      joinQueue (joinQueue s uid ig ct rid dbPick).1 uid ig ct rid dbPick =
        joinQueue s uid ig ct rid dbPick) := by
  cases ig
  case true =>
    refine ⟨?_, ?_, ?_⟩
    · rw [joinQueue_guest]
      refine le_trans (findMatch_waitingUsers_count _ uid ct rid uid dbPick) ?_
      rw [show ({ s with waitingUsers := mapSet s.waitingUsers uid ct } :
          ServerState).waitingUsers = mapSet s.waitingUsers uid ct from rfl,
        countKey_mapSet_self]
      omega
    · rw [joinQueue_guest]
      exact le_trans (findMatch_userQueue_count _ uid ct rid uid dbPick) hq
    · intro hno hdb
      subst hdb
      have h1 : joinQueue s uid true ct rid none =
          ({ s with waitingUsers := mapSet s.waitingUsers uid ct }, []) := by
        rw [joinQueue_guest]
        exact findMatch_none _ uid ct rid hno
      rw [h1]
      show joinQueue { s with waitingUsers := mapSet s.waitingUsers uid ct }
          uid true ct rid none =
        ({ s with waitingUsers := mapSet s.waitingUsers uid ct }, [])
      rw [joinQueue_guest]
      have hstate : ({ { s with waitingUsers := mapSet s.waitingUsers uid ct } with
          waitingUsers := mapSet ({ s with
            waitingUsers := mapSet s.waitingUsers uid ct } :
              ServerState).waitingUsers uid ct } : ServerState) =
          { s with waitingUsers := mapSet s.waitingUsers uid ct } := by
        show ({ s with
            waitingUsers := mapSet (mapSet s.waitingUsers uid ct) uid ct } :
              ServerState) = _
        rw [mapSet_mapSet]
      rw [hstate]
      exact findMatch_none _ uid ct rid hno
  case false =>
    refine ⟨?_, ?_, ?_⟩
    · rw [joinQueue_auth]
      refine le_trans (findMatch_waitingUsers_count _ uid ct rid uid dbPick) ?_
      rw [show ({ s with
          userQueue := dbDeleteQueue s.userQueue uid ++ [(uid, ct)],
          waitingUsers := mapSet s.waitingUsers uid ct } :
            ServerState).waitingUsers = mapSet s.waitingUsers uid ct from rfl,
        countKey_mapSet_self]
      omega
    · rw [joinQueue_auth]
      refine le_trans (findMatch_userQueue_count _ uid ct rid uid dbPick) ?_
      rw [show ({ s with
          userQueue := dbDeleteQueue s.userQueue uid ++ [(uid, ct)],
          waitingUsers := mapSet s.waitingUsers uid ct } :
            ServerState).userQueue =
          dbDeleteQueue s.userQueue uid ++ [(uid, ct)] from rfl,
        countKey_append, countKey_dbDeleteQueue_self, countKey_cons]
      simp [countKey]
    · intro hno hdb
      subst hdb
      have h1 : joinQueue s uid false ct rid none =
          ({ s with
            userQueue := dbDeleteQueue s.userQueue uid ++ [(uid, ct)],
            waitingUsers := mapSet s.waitingUsers uid ct }, []) := by
        rw [joinQueue_auth]
        exact findMatch_none _ uid ct rid hno
      rw [h1]
      show joinQueue { s with
          userQueue := dbDeleteQueue s.userQueue uid ++ [(uid, ct)],
          waitingUsers := mapSet s.waitingUsers uid ct } uid false ct rid none =
        ({ s with
          userQueue := dbDeleteQueue s.userQueue uid ++ [(uid, ct)],
          waitingUsers := mapSet s.waitingUsers uid ct }, [])
      rw [joinQueue_auth]
      have hstate : ({ { s with
          userQueue := dbDeleteQueue s.userQueue uid ++ [(uid, ct)],
          waitingUsers := mapSet s.waitingUsers uid ct } with
          userQueue := dbDeleteQueue ({ s with
            userQueue := dbDeleteQueue s.userQueue uid ++ [(uid, ct)],
            waitingUsers := mapSet s.waitingUsers uid ct } :
              ServerState).userQueue uid ++ [(uid, ct)],
          waitingUsers := mapSet ({ s with
            userQueue := dbDeleteQueue s.userQueue uid ++ [(uid, ct)],
            waitingUsers := mapSet s.waitingUsers uid ct } :
              ServerState).waitingUsers uid ct } : ServerState) =
          { s with
            userQueue := dbDeleteQueue s.userQueue uid ++ [(uid, ct)],
            waitingUsers := mapSet s.waitingUsers uid ct } := by
        show ({ s with
            userQueue := dbDeleteQueue
              (dbDeleteQueue s.userQueue uid ++ [(uid, ct)]) uid ++ [(uid, ct)],
            waitingUsers := mapSet (mapSet s.waitingUsers uid ct) uid ct } :
              ServerState) = _
        rw [mapSet_mapSet, dbDeleteQueue_append, dbDeleteQueue_idem,
          dbDeleteQueue_single_self, List.append_nil]
      rw [hstate]
      exact findMatch_none _ uid ct rid hno

/-- Claim C5, witness: starting from the empty server state, an authenticated
`join-queue` by `u1` leaves one waiting-pool entry and one queue row for `u1`,
and repeating the call is a no-op. -/
theorem join_queue_single_entry_witness :
    countKey (joinQueue emptyState "u1" false "video" "r" none).1.waitingUsers
        "u1" ≤ 1 ∧
    countKey (joinQueue emptyState "u1" false "video" "r" none).1.userQueue
        "u1" ≤ 1 ∧
    (guestScan (mapSet emptyState.waitingUsers "u1" "video") "u1" "video" =
        none → (none : Option (String × String)) = none →
      joinQueue (joinQueue emptyState "u1" false "video" "r" none).1 "u1" false
          "video" "r" none =
        joinQueue emptyState "u1" false "video" "r" none) :=
  join_queue_single_entry emptyState "u1" false "video" "r" none
    (by decide) (by decide)

/-- Claim C6, counterexample: the authenticated matching query has no order
clause, so with the two compatible rows `u1` (enqueued first) and `u2` in the
queue, returning `u2` is a permitted outcome of
`.eq('chat_type', ...).neq('user_id', ...).limit(1).single()`, although the
first compatible entry in insertion order is `u1`. -/
theorem db_match_can_skip_earliest :
    dbPickValid [("u1", "video"), ("u2", "video")] "u3" "video" ("u2", "video") ∧
    fifoCandidateSpec [("u1", "video"), ("u2", "video")] "u3" "video" =
      some ("u1", "video") ∧
    (("u2", "video") : String × String) ≠ ("u1", "video") := by
  decide

/-- Claim C6, amended: the guest (in-memory) branch does serve the earliest
compatible waiter — `find` over the pool in insertion order returns an entry
all of whose predecessors fail the compatibility predicate — while the
authenticated branch's database query guarantees only that the returned row
passes the filters (equal chat-type, different user), not any position in
insertion order. -/
theorem first_compatible_selection (pool q : List (String × String))
    (uid ct : String) (w row : String × String) :
    (guestScan pool uid ct = some w →
      ∃ l₁ l₂, pool = l₁ ++ w :: l₂ ∧
        (∀ x ∈ l₁,
          (x.1 != uid && x.2 == ct && strStartsWith x.1 "guest-") = false) ∧
        (w.1 != uid && w.2 == ct && strStartsWith w.1 "guest-") = true) ∧
    (dbPickValid q uid ct row ↔ row ∈ q ∧ row.2 = ct ∧ row.1 ≠ uid) := by
  constructor
  · exact fun h => find_eq_some_split _ pool w h
  · unfold dbPickValid queueCandidates
    simp [List.mem_filter, and_assoc]

/-- Claim C6, witness for the amended theorem: on a pool holding `guest-a`
then `guest-b`, the scan for `guest-x` returns `guest-a`, the earliest
compatible waiter. -/
theorem first_compatible_selection_witness :
    ∃ l₁ l₂, ([("guest-a", "video"), ("guest-b", "video")] :
        List (String × String)) = l₁ ++ ("guest-a", "video") :: l₂ ∧
      (∀ x ∈ l₁,
        (x.1 != "guest-x" && x.2 == "video" && strStartsWith x.1 "guest-") =
          false) ∧
      (("guest-a", "video").1 != "guest-x" && ("guest-a", "video").2 == "video"
        && strStartsWith ("guest-a", "video").1 "guest-") = true :=
  (first_compatible_selection [("guest-a", "video"), ("guest-b", "video")] []
    "guest-x" "video" ("guest-a", "video") ("z", "video")).1 rfl

/-- Claim C7, counterexample: in `doubleLeaveState` the users `a` and `b`
occupy room `r2`.  `a`'s first `leave-room` delivers `user-left` to `b`; `a`'s
second `leave-room` for the same room delivers `user-left` to `b` again,
because `b` is still joined to the socket room — two notifications, where the
claim allows at most one. -/
theorem double_leave_notifies_twice :
    (leaveRoom doubleLeaveState "a" "r2").2 =
      [("b", ServerEvent.userLeft "r2")] ∧
    (leaveRoom doubleLeaveState "a" "r2").1.chatRooms =
      [("r2", RoomStatus.ended)] ∧
    (leaveRoom (leaveRoom doubleLeaveState "a" "r2").1 "a" "r2").2 =
      [("b", ServerEvent.userLeft "r2")] := by
  decide

/-- Claim C7, amended: calling `leave-room` twice for the same room produces
a single status transition — the room's row is `ended` after the first call
and ending it again is a no-op on the status, never an error — but each call
re-emits `user-left` to the occupants still joined to the socket room, so the
partner who stayed joined receives one `user-left` per call rather than at
most one in total. -/
theorem leave_room_status_idempotent_notification_repeated
    (s : ServerState) (a b rid : String) (st : RoomStatus)
    (hroom : mapGet s.chatRooms rid = some st)
    (hmem : mapGet s.socketRooms rid = some [a, b])
    (hab : a ≠ b) :
    mapGet (leaveRoom s a rid).1.chatRooms rid = some RoomStatus.ended ∧
    mapGet (leaveRoom (leaveRoom s a rid).1 a rid).1.chatRooms rid =
      some RoomStatus.ended ∧
    (leaveRoom s a rid).2 = [(b, ServerEvent.userLeft rid)] ∧
    (leaveRoom (leaveRoom s a rid).1 a rid).2 =
      [(b, ServerEvent.userLeft rid)] := by
  have hba : b ≠ a := Ne.symm hab
  have hfil : List.filter (fun u => u != a) [a, b] = [b] := by simp [hba]
  have h1 := leaveRoom_eq s a rid [a, b] hmem
  rw [hfil] at h1
  simp only [List.map_cons, List.map_nil] at h1
  have hend1 : mapGet (leaveRoom s a rid).1.chatRooms rid =
      some RoomStatus.ended := by
    rw [h1]
    exact endRoomRow_mapGet _ _ st hroom
  have hmem2 : mapGet (leaveRoom s a rid).1.socketRooms rid = some [b] := by
    rw [h1]
    exact mapGet_mapSet_self _ _ _
  have h2 := leaveRoom_eq (leaveRoom s a rid).1 a rid [b] hmem2
  have hfil2 : List.filter (fun u => u != a) [b] = [b] := by simp [hba]
  rw [hfil2] at h2
  simp only [List.map_cons, List.map_nil] at h2
  refine ⟨hend1, ?_, ?_, ?_⟩
  · rw [h2]
    exact endRoomRow_mapGet _ _ RoomStatus.ended hend1
  · rw [h1]
  · rw [h2]

/-- Claim C7, witness for the amended theorem: evaluated on `doubleLeaveState`
where `a` and `b` occupy room `r2`. -/
theorem leave_room_status_idempotent_notification_repeated_witness :
    mapGet (leaveRoom doubleLeaveState "a" "r2").1.chatRooms "r2" =
      some RoomStatus.ended ∧
    mapGet (leaveRoom (leaveRoom doubleLeaveState "a" "r2").1 "a" "r2").1.chatRooms
        "r2" = some RoomStatus.ended ∧
    (leaveRoom doubleLeaveState "a" "r2").2 =
      [("b", ServerEvent.userLeft "r2")] ∧
    (leaveRoom (leaveRoom doubleLeaveState "a" "r2").1 "a" "r2").2 =
      [("b", ServerEvent.userLeft "r2")] :=
  leave_room_status_idempotent_notification_repeated doubleLeaveState "a" "b"
    "r2" RoomStatus.active rfl rfl (by decide)

/-- Claim C8: authentication happens in the connection middleware, once per
handshake and before any event handler: a handshake with neither token nor
guest name, or with a token the identity provider rejects, is refused with an
authentication error; a handshake is accepted only with a provider-verified
token or with a guest name (which yields a fresh guest identity). -/
theorem authentication_refused_before_handlers
    (v : String → Option String) (f : String) :
    (authMiddleware none none v f =
      Except.error "Authentication error: No token or guestUsername provided") ∧
    (∀ t g, v t = none → authMiddleware (some t) g v f =
      Except.error "Authentication error: Invalid token") ∧
    (∀ tok g ident, authMiddleware tok g v f = Except.ok ident →
      (∃ t, tok = some t ∧ v t = some ident.userId ∧ ident.isGuest = false) ∨
      (tok = none ∧ g ≠ none ∧ ident.isGuest = true ∧
        ident.userId = "guest-" ++ f)) := by
  refine ⟨rfl, ?_, ?_⟩
  · intro t g hv
    simp [authMiddleware, hv]
  · intro tok g ident h
    cases tok with
    | none =>
      cases g with
      | none => simp [authMiddleware] at h
      | some gname =>
        right
        have hident : ident = ⟨"guest-" ++ f, true⟩ := by
          simpa [authMiddleware] using h.symm
        subst hident
        exact ⟨rfl, by simp, rfl, rfl⟩
    | some t =>
      left
      cases hv : v t with
      | none => simp [authMiddleware, hv] at h
      | some uid =>
        have hident : ident = ⟨uid, false⟩ := by
          simpa [authMiddleware, hv] using h.symm
        subst hident
        exact ⟨t, rfl, hv, rfl⟩

/-- Claim C8, witness: a handshake with no credentials and one with a token
the provider rejects are both refused. -/
theorem authentication_refused_before_handlers_witness :
    (authMiddleware none none (fun _ => none) "g1" =
      Except.error "Authentication error: No token or guestUsername provided") ∧
    (authMiddleware (some "t1") none (fun _ => none) "g1" =
      Except.error "Authentication error: Invalid token") :=
  ⟨(authentication_refused_before_handlers (fun _ => none) "g1").1,
   (authentication_refused_before_handlers (fun _ => none) "g1").2.1 "t1" none
     rfl⟩

/-- Claim C9, counterexample: a guest sender's relayed `new-message` carries
no `timestamp` field — in `guestRoomState` the payload delivered to
`guest-b` is `{roomId, senderId, content, messageType}` with the timestamp
component absent, while the same send by an authenticated user carries it. -/
theorem guest_message_lacks_timestamp :
    sendMessage guestRoomState "guest-a" true "r3" "hi" "text" "t1" =
      [("guest-b", ServerEvent.newMessage "r3" "guest-a" "hi" "text" none)] ∧
    sendMessage guestRoomState "guest-a" false "r3" "hi" "text" "t1" =
      [("guest-b",
        ServerEvent.newMessage "r3" "guest-a" "hi" "text" (some "t1"))] := by
  decide

/-- Claim C9, amended: every relayed `new-message` delivery goes to a room
member other than the sender and carries `{roomId, senderId, content,
messageType}`; the `timestamp` field is present exactly on the authenticated
branch and absent for guest senders. -/
theorem new_message_fields (s : ServerState) (uid rid msg mt now : String)
    (ig : Bool) (d : Delivery)
    (hd : d ∈ sendMessage s uid ig rid msg mt now) :
    d.2 = ServerEvent.newMessage rid uid msg mt
      (if ig then none else some now) ∧
    d.1 ∈ roomMembers s rid ∧ d.1 ≠ uid := by
  have hfan : ∀ ts : Option String,
      d ∈ (socketToRoom s rid uid).map
        (fun u => (u, ServerEvent.newMessage rid uid msg mt ts)) →
      d.2 = ServerEvent.newMessage rid uid msg mt ts ∧
      d.1 ∈ roomMembers s rid ∧ d.1 ≠ uid := by
    intro ts hin
    obtain ⟨u, hu, rfl⟩ := List.mem_map.mp hin
    rcases List.mem_filter.mp hu with ⟨hm, hne⟩
    exact ⟨rfl, hm, by simpa using hne⟩
  cases ig
  case false => exact hfan (some now) hd
  case true => exact hfan none hd

/-- Claim C9, witness for the amended theorem: the authenticated delivery in
`guestRoomState` carries all five fields including the timestamp. -/
theorem new_message_fields_witness :
    (("guest-b",
        ServerEvent.newMessage "r3" "guest-a" "hi" "text" (some "t1")) :
      Delivery).2 =
      ServerEvent.newMessage "r3" "guest-a" "hi" "text"
        (if false then none else some "t1") ∧
    (("guest-b",
        ServerEvent.newMessage "r3" "guest-a" "hi" "text" (some "t1")) :
      Delivery).1 ∈ roomMembers guestRoomState "r3" ∧
    (("guest-b",
        ServerEvent.newMessage "r3" "guest-a" "hi" "text" (some "t1")) :
      Delivery).1 ≠ "guest-a" :=
  new_message_fields guestRoomState "guest-a" "r3" "hi" "text" "t1" false
    ("guest-b", ServerEvent.newMessage "r3" "guest-a" "hi" "text" (some "t1"))
    (by decide)

/-- Claim C10: matching never pairs a guest with an authenticated user.  The
guest branch of `findMatch` only accepts waiting entries whose identifier has
the `guest-` prefix; the authenticated branch draws its partner from the
`user_queue` table; and `join-queue` preserves the invariant that no guest
identifier ever enters that table (guests are enqueued in memory only). -/
theorem matching_respects_trust_tier (s : ServerState) (uid ct rid : String)
    (dbPick : Option (String × String)) :
    (∀ w, guestScan s.waitingUsers uid ct = some w →
      strStartsWith w.1 "guest-" = true) ∧
    (∀ row, noGuestInDb s.userQueue → dbPickValid s.userQueue uid ct row →
      strStartsWith row.1 "guest-" = false) ∧
    (∀ ig : Bool, noGuestInDb s.userQueue →
      ig = strStartsWith uid "guest-" →
      noGuestInDb (joinQueue s uid ig ct rid dbPick).1.userQueue) := by
  refine ⟨?_, ?_, ?_⟩
  · intro w h
    have hpred := List.find?_some h
    simp only [Bool.and_eq_true] at hpred
    exact hpred.2
  · intro row hdb hpick
    exact hdb row (List.mem_filter.mp hpick).1
  · intro ig hdb hig
    cases ig
    case true =>
      rw [joinQueue_guest]
      exact findMatch_noGuestInDb _ uid ct rid dbPick hdb
    case false =>
      rw [joinQueue_auth]
      refine findMatch_noGuestInDb _ uid ct rid dbPick ?_
      intro r hr
      rcases List.mem_append.mp hr with hr | hr
      · exact hdb r (List.mem_filter.mp hr).1
      · have hr' : r = (uid, ct) := List.mem_singleton.mp hr
        subst hr'
        exact hig.symm

/-- Claim C10, witness: the guest scan in `guestWaiterState` returns the
guest `guest-b`, and a row permitted by the authenticated query over the
guest-free `dbQueueState` queue is itself guest-free. -/
theorem matching_respects_trust_tier_witness :
    strStartsWith "guest-b" "guest-" = true ∧
    strStartsWith "u7" "guest-" = false :=
  ⟨(matching_respects_trust_tier guestWaiterState "guest-x" "video" "r"
      none).1 ("guest-b", "video") rfl,
   (matching_respects_trust_tier dbQueueState "u9" "video" "r" none).2.1
      ("u7", "video") (by decide) (by decide)⟩

end Ceople
